import Mathlib

/-!
Verification of the blockrun-mcp server's specified behaviour.

JavaScript strings are modelled as `List Char`; JS string operations
(`trim`, `toLowerCase`, `startsWith`, `includes`) are given explicit
executable translations below.  Monetary amounts (US dollars) and token
balances are modelled as rationals (`ℚ`).  Fallible operations return
`Except` or `Option`.

The budget guard and balance reader are specified by the repository's
design document but their implementation files are not among the sources;
those two components are modelled from the specification text and are
marked as such.  Everything else is translated from `src/index.ts`.
-/

/-- JS `s.startsWith(marker)` over char lists: `startsW marker s` is true
when `s` begins with `marker`. -/
def startsW : List Char → List Char → Bool
  | [], _ => true
  | _ :: _, [] => false
  | a :: marker, b :: s => a == b && startsW marker s

/-- JS `hay.includes(needle)` over char lists: scans every suffix of the
haystack for the needle as a leading segment. -/
def containsSub (needle : List Char) : List Char → Bool
  | [] => startsW needle []
  | c :: rest => startsW needle (c :: rest) || containsSub needle rest

/-- JS `s.trim()`: drops whitespace from both ends of the string. -/
def trimChars (cs : List Char) : List Char :=
  ((cs.dropWhile Char.isWhitespace).reverse.dropWhile Char.isWhitespace).reverse

/-- JS `s.toLowerCase()` over char lists. -/
def lowerChars (s : List Char) : List Char :=
  s.map Char.toLower

/-- Modelled from the spec: the BudgetGuard state (spec §3).  The
implementation file of the session budget guard is not among the sources
under src/; `limit` is the optional user-set ceiling, `spent` the
cumulative recorded spend, `calls` the count of metered operations. -/
structure BudgetState where
  limit : Option ℚ
  spent : ℚ
  calls : ℕ
deriving DecidableEq

/-- Modelled from the spec: initial state `limit = null, spent = 0, calls = 0`. -/
def initialBudget : BudgetState :=
  { limit := none, spent := 0, calls := 0 }

/-- Result shape of `checkBudget` (spec §4.1). -/
structure CheckResult where
  allowed : Bool
  remaining : Option ℚ
deriving DecidableEq

/-- Modelled from the spec: `checkBudget()`.  If `limit` is unset, always
`allowed=true, remaining=null`; otherwise `remaining = limit - spent` and
`allowed = remaining > 0`.  Pure read. -/
def checkBudget (s : BudgetState) : CheckResult :=
  match s.limit with
  | none => { allowed := true, remaining := none }
  | some l => { allowed := decide (0 < l - s.spent), remaining := some (l - s.spent) }

/-- Modelled from the spec: `recordSpend(cost)` adds `cost` to `spent` and
increments `calls` by one. -/
def recordSpend (cost : ℚ) (s : BudgetState) : BudgetState :=
  { s with spent := s.spent + cost, calls := s.calls + 1 }

/-- The one hard failure the budget guard raises (spec §7). -/
inductive BudgetError
  | invalidArgument
deriving DecidableEq

/-- Modelled from the spec: `setLimit(amount)` replaces `limit`, failing
with `InvalidArgument` when `amount <= 0`. -/
def setLimit (amount : ℚ) (s : BudgetState) : Except BudgetError BudgetState :=
  if amount ≤ 0 then Except.error BudgetError.invalidArgument
  else Except.ok { s with limit := some amount }

/-- Modelled from the spec: `clearLimit()` sets `limit = null`; always succeeds. -/
def clearLimit (s : BudgetState) : BudgetState :=
  { s with limit := none }

/-- Modelled from the spec: `status()` returns a snapshot of the state. -/
def statusSnapshot (s : BudgetState) : BudgetState :=
  s

/-- A budget-guard operation, for reasoning about operation sequences. -/
inductive BudgetOp
  | check
  | record (cost : ℚ)
  | setL (amount : ℚ)
  | clearL
  | stat
deriving DecidableEq

/-- State transition of one budget operation.  `check` and `stat` are pure
reads; a failing `setLimit` leaves the caller's state unchanged. -/
def applyOp (s : BudgetState) : BudgetOp → BudgetState
  | BudgetOp.check => s
  | BudgetOp.record c => recordSpend c s
  | BudgetOp.setL a =>
      match setLimit a s with
      | Except.ok s' => s'
      | Except.error _ => s
  | BudgetOp.clearL => clearLimit s
  | BudgetOp.stat => statusSnapshot s

/-- Runs a sequence of budget operations from a starting state. -/
def runOps (s : BudgetState) (ops : List BudgetOp) : BudgetState :=
  ops.foldl applyOp s

/-- The costs of the `record` operations of a sequence, in order. -/
def recordedCosts : List BudgetOp → List ℚ
  | [] => []
  | BudgetOp.record c :: ops => c :: recordedCosts ops
  | _ :: ops => recordedCosts ops

/-- Outcome of querying one RPC endpoint: a transport failure, or the JSON
response's `result` string. -/
inductive RpcOutcome
  | failure
  | result (s : List Char)
deriving DecidableEq

/-- Value of one hexadecimal digit, upper or lower case. -/
def hexDigitVal (c : Char) : Option ℕ :=
  if ('0' ≤ c ∧ c ≤ '9') then some (c.toNat - ('0').toNat)
  else if ('a' ≤ c ∧ c ≤ 'f') then some (c.toNat - ('a').toNat + 10)
  else if ('A' ≤ c ∧ c ≤ 'F') then some (c.toNat - ('A').toNat + 10)
  else none

/-- Accumulating hexadecimal parse; fails on any non-hex character. -/
def hexAcc : ℕ → List Char → Option ℕ
  | acc, [] => some acc
  | acc, c :: cs =>
      match hexDigitVal c with
      | some d => hexAcc (16 * acc + d) cs
      | none => none

/-- Parses a nonempty string of hex digits; the empty digit string is a
decode failure (an empty `0x` result is not a zero balance). -/
def decodeHexNat (cs : List Char) : Option ℕ :=
  match cs with
  | [] => none
  | _ :: _ => hexAcc 0 cs

/-- The token's fixed decimal scale: USDC has 6 decimals (spec §4.2). -/
def usdcScale : ℚ := 1000000

/-- Modelled from the spec: decoding of an endpoint's `result` string —
a `0x`-prefixed hexadecimal integer divided by the fixed scale `10^6`.
A missing prefix, a bad digit, or an empty `0x` yields `none`. -/
def decodeResult (cs : List Char) : Option ℚ :=
  match cs with
  | c0 :: c1 :: rest =>
      if c0 = '0' ∧ c1 = 'x' then
        (decodeHexNat rest).map (fun n => (n : ℚ) / usdcScale)
      else none
  | _ => none

/-- The usable numeric value an endpoint contributes, if any. -/
def usableValue : RpcOutcome → Option ℚ
  | RpcOutcome.failure => none
  | RpcOutcome.result s => decodeResult s

/-- Modelled from the spec: `BalanceReader.getBalance`.  The implementation
file of the balance reader is not among the sources under src/.  The list
holds the per-endpoint outcomes for the queried address, in the fixed
endpoint order; the first endpoint whose result decodes wins, every
failure (transport, decode, or empty `0x`) falls through to the next
endpoint, and exhaustion yields `none` (balance unavailable, not zero). -/
def getBalance : List RpcOutcome → Option ℚ
  | [] => none
  | RpcOutcome.failure :: rest => getBalance rest
  | RpcOutcome.result s :: rest =>
      match decodeResult s with
      | some v => some v
      | none => getBalance rest

def errorHeadS : String := "Error: "

def paymentS : String := "payment"

def code402S : String := "402"

def balanceS : String := "balance"

def insufficientS : String := "insufficient"

def fundingS : String := "\n\nThis error usually means your wallet needs funding.\nRun the blockrun_setup tool to get your wallet address and funding instructions.\n\nQuick fix: Send USDC to your wallet on Base network."

/-- From src/index.ts (formatError and the CallToolRequestSchema handler):
an error message is payment-related when its lower-cased text contains
"payment", "402", "balance" or "insufficient". -/
def isPaymentError (message : List Char) : Bool :=
  containsSub paymentS.data (lowerChars message) ||
    containsSub code402S.data (lowerChars message) ||
    containsSub balanceS.data (lowerChars message) ||
    containsSub insufficientS.data (lowerChars message)

/-- From src/index.ts `formatError`: prefix the message with `Error: ` and
append wallet-funding instructions when it is payment-related. -/
def formatError (message : List Char) : List Char :=
  errorHeadS.data ++ message ++ (if isPaymentError message then fundingS.data else [])

/-- An MCP tool result: the text content and the `isError` flag. -/
structure ToolResult where
  text : List Char
  isError : Bool
deriving DecidableEq

/-- From src/index.ts (CallToolRequestSchema handler): a handler outcome is
either a result string, or a thrown error message which the surrounding
try/catch converts into an `isError` result with the formatted text. -/
def dispatchToolCall (outcome : Except (List Char) (List Char)) : ToolResult :=
  match outcome with
  | Except.ok t => { text := t, isError := false }
  | Except.error m => { text := formatError m, isError := true }

/-- Observable events of a chat-tool invocation, for the budget-gating
control-flow claim: a budget consultation, the external paid call, or a
spend report. -/
inductive ChatEvent
  | budgetCheck
  | paidCall (model : List Char)
  | spendRecord (cost : ℚ)
deriving DecidableEq

/-- From src/index.ts `handleChat` (and the v2 `blockrun_chat` handler's
body): the handler invokes `llm.chat(model, message, ...)` and returns its
response; this is its complete effect, recorded as the event trace
together with the chat result.  `chat` abstracts the external LLM client. -/
def handleChat (chat : List Char → List Char → Except (List Char) (List Char))
    (model message : List Char) :
    List ChatEvent × Except (List Char) (List Char) :=
  ([ChatEvent.paidCall model], chat model message)

/-- From src/index.ts (v2 `blockrun_chat` registered handler): the chat
call's error, if any, is caught and converted via `formatError` into an
`isError` tool result. -/
def chatToolHandler (chat : List Char → List Char → Except (List Char) (List Char))
    (model message : List Char) : List ChatEvent × ToolResult :=
  match chat model message with
  | Except.ok r => ([ChatEvent.paidCall model], { text := r, isError := false })
  | Except.error e => ([ChatEvent.paidCall model], { text := formatError e, isError := true })

/-- Whether a trace's first event is a budget consultation. -/
def firstConsultsBudget (evs : List ChatEvent) : Bool :=
  match evs with
  | ChatEvent.budgetCheck :: _ => true
  | _ => false

/-- Number of spend-report events in a trace. -/
def spendRecordCount (evs : List ChatEvent) : ℕ :=
  evs.countP fun e =>
    match e with
    | ChatEvent.spendRecord _ => true
    | _ => false

/-- The five smart-routing modes of src/index.ts `MODEL_TIERS`. -/
inductive RoutingMode
  | fast
  | balanced
  | powerful
  | cheap
  | reasoning
deriving DecidableEq

def geminiFlashS : String := "google/gemini-2.5-flash"

def gpt4oMiniS : String := "openai/gpt-4o-mini"

def deepseekChatS : String := "deepseek/deepseek-chat"

def gpt4oS : String := "openai/gpt-4o"

def claudeSonnetS : String := "anthropic/claude-sonnet-4"

def geminiProS : String := "google/gemini-2.5-pro"

def gpt52S : String := "openai/gpt-5.2"

def claudeOpusS : String := "anthropic/claude-opus-4"

def o3S : String := "openai/o3"

def o1S : String := "openai/o1"

def deepseekReasonerS : String := "deepseek/deepseek-reasoner"

/-- From src/index.ts `MODEL_TIERS`: the static tier table of three model
ids per routing mode, in the listed order. -/
def MODEL_TIERS : RoutingMode → List (List Char)
  | RoutingMode.fast => [geminiFlashS.data, gpt4oMiniS.data, deepseekChatS.data]
  | RoutingMode.balanced => [gpt4oS.data, claudeSonnetS.data, geminiProS.data]
  | RoutingMode.powerful => [gpt52S.data, claudeOpusS.data, o3S.data]
  | RoutingMode.cheap => [geminiFlashS.data, deepseekChatS.data, gpt4oMiniS.data]
  | RoutingMode.reasoning => [o3S.data, o1S.data, deepseekReasonerS.data]

def usedOpenS : String := "[Used: "

def usedCloseS : String := "]\n\n"

def allModelsFailedS : String := "All models failed"

/-- From src/index.ts `handleSmartRoute`: the success text
`[Used: <model>]\n\n<response>`. -/
def usedTag (model response : List Char) : List Char :=
  usedOpenS.data ++ model ++ usedCloseS.data ++ response

/-- From src/index.ts `handleSmartRoute`: try the models in order,
remembering the last error; return at the first success, and after
exhausting the list surface the last error, or `All models failed` when
none was captured.  `chat` abstracts one chat call for the invocation's
fixed message. -/
def tryModels (chat : List Char → Except (List Char) (List Char)) :
    List (List Char) → Option (List Char) → Except (List Char) (List Char)
  | [], lastErr => Except.error (lastErr.getD allModelsFailedS.data)
  | model :: rest, lastErr =>
      match chat model with
      | Except.ok r => Except.ok (usedTag model r)
      | Except.error e => tryModels chat rest (some e)

/-- From src/index.ts `handleSmartRoute` / the `blockrun_smart` handler:
route over the mode's tier list. -/
def handleSmartRoute (chat : List Char → Except (List Char) (List Char))
    (mode : RoutingMode) : Except (List Char) (List Char) :=
  tryModels chat (MODEL_TIERS mode) none

/-- State of the wallet file `~/.blockrun/.session`: absent, present but
unreadable (the read throws), or present with some content. -/
inductive WalletFile
  | absent
  | unreadable
  | stored (content : List Char)
deriving DecidableEq

/-- JS truthiness of an optional string: `undefined` and the empty string
are falsy. -/
def jsTruthy : Option (List Char) → Bool
  | none => false
  | some s => ! s.isEmpty

/-- JS `a || b` on optional strings: `b` when `a` is falsy. -/
def jsOrElse (a b : Option (List Char)) : Option (List Char) :=
  if jsTruthy a then a else b

/-- Result of `getOrCreateWalletKey`: the resolved key and the
`walletWasCreated` flag. -/
structure WalletKeyResult where
  key : List Char
  created : Bool
deriving DecidableEq

def hexMarkerS : String := "0x"

/-- From src/index.ts `getOrCreateWalletKey`: a saved key is accepted when
its trimmed content starts with `0x` and is exactly 66 characters long. -/
def validKeyFormat (savedKey : List Char) : Bool :=
  startsW hexMarkerS.data savedKey && savedKey.length == 66

/-- From src/index.ts `getOrCreateWalletKey`:
1. `process.env.BLOCKRUN_WALLET_KEY || process.env.BASE_CHAIN_WALLET_KEY`,
   used when truthy;
2. otherwise the wallet file's trimmed content when it is readable and
   passes the format check;
3. otherwise a freshly generated key, setting `walletWasCreated`. -/
def getOrCreateWalletKey (blockrunKey baseChainKey : Option (List Char))
    (file : WalletFile) (freshKey : List Char) : WalletKeyResult :=
  let envKey := jsOrElse blockrunKey baseChainKey
  if jsTruthy envKey then
    { key := envKey.getD [], created := false }
  else
    match file with
    | WalletFile.stored content =>
        let savedKey := trimChars content
        if validKeyFormat savedKey then
          { key := savedKey, created := false }
        else
          { key := freshKey, created := true }
    | _ => { key := freshKey, created := true }

def demoBudgetState : BudgetState :=
  { limit := some 5, spent := 2, calls := 1 }

/-- The spec §8 scenario's spends, with a status read interleaved. -/
def demoOps : List BudgetOp :=
  [BudgetOp.record (6 / 10), BudgetOp.check, BudgetOp.record (3 / 10),
    BudgetOp.record (15 / 100)]

/-- The spec §8 balance example: endpoint result `0xf4240` (1,000,000). -/
def resultF4240 : List Char := ['0', 'x', 'f', '4', '2', '4', '0']

/-- A well-formed-but-empty endpoint result `0x`. -/
def emptyHex : List Char := ['0', 'x']

def paymentDemoS : String := "402 Payment Required"

def payPreS : String := "402 "

def payPostS : String := " required"

def demoModelS : String := "openai/gpt-4o"

def demoMessageS : String := "hi"

def demoReplyS : String := "hello"

/-- A chat oracle that always succeeds, for the gating counterexample. -/
def demoOkChat : List Char → List Char → Except (List Char) (List Char) :=
  fun _ _ => Except.ok demoReplyS.data

def demoErr0S : String := "o3 unavailable"

def demoErr1S : String := "o1 unavailable"

def demoReasonReplyS : String := "the answer"

/-- A chat oracle failing on the first two reasoning-tier models and
succeeding on the third. -/
def demoChat : List Char → Except (List Char) (List Char) :=
  fun model =>
    if model == o3S.data then Except.error demoErr0S.data
    else if model == o1S.data then Except.error demoErr1S.data
    else Except.ok demoReasonReplyS.data

def goodKeyS : String := "0x1111111111111111111111111111111111111111111111111111111111111111"

def freshKeyS : String := "0x2222222222222222222222222222222222222222222222222222222222222222"

def demoEnvKeyS : String := "0x3333333333333333333333333333333333333333333333333333333333333333"

theorem runOps_cons (s : BudgetState) (op : BudgetOp) (ops : List BudgetOp) :
    runOps s (op :: ops) = runOps (applyOp s op) ops :=
  rfl

theorem runOps_spent_calls : ∀ (ops : List BudgetOp) (s : BudgetState),
    (∀ op ∈ ops, op = BudgetOp.check ∨ ∃ c, op = BudgetOp.record c) →
    (runOps s ops).spent = s.spent + (recordedCosts ops).sum ∧
      (runOps s ops).calls = s.calls + (recordedCosts ops).length := by
  intro ops
  induction ops with
  | nil => intro s _; simp [runOps, recordedCosts]
  | cons op rest ih =>
    intro s h
    have hop := h op (List.mem_cons_self op rest)
    have hrest : ∀ o ∈ rest, o = BudgetOp.check ∨ ∃ c, o = BudgetOp.record c :=
      fun o ho => h o (List.mem_cons_of_mem op ho)
    cases hop with
    | inl hc =>
      subst hc
      have hr := ih s hrest
      rw [runOps_cons]
      simpa [applyOp, recordedCosts] using hr
    | inr hr =>
      obtain ⟨c, hc⟩ := hr
      subst hc
      have hrec := ih (applyOp s (BudgetOp.record c)) hrest
      rw [runOps_cons]
      constructor
      · rw [hrec.1]
        simp [applyOp, recordSpend, recordedCosts]
        ring
      · rw [hrec.2]
        simp [applyOp, recordSpend, recordedCosts]
        omega

theorem runOps_mono : ∀ (ops : List BudgetOp) (s : BudgetState),
    (∀ c, BudgetOp.record c ∈ ops → 0 ≤ c) →
    s.spent ≤ (runOps s ops).spent ∧ s.calls ≤ (runOps s ops).calls := by
  intro ops
  induction ops with
  | nil => intro s _; simp [runOps]
  | cons op rest ih =>
    intro s h
    have hrest : ∀ c, BudgetOp.record c ∈ rest → 0 ≤ c :=
      fun c hc => h c (List.mem_cons_of_mem op hc)
    have hstep : s.spent ≤ (applyOp s op).spent ∧ s.calls ≤ (applyOp s op).calls := by
      cases op with
      | check => simp [applyOp]
      | stat => simp [applyOp, statusSnapshot]
      | clearL => simp [applyOp, clearLimit]
      | setL a =>
        by_cases ha : a ≤ 0 <;> simp [applyOp, setLimit, ha]
      | record c =>
        have hc : 0 ≤ c := h c (List.mem_cons_self _ _)
        refine ⟨?_, ?_⟩
        · simp [applyOp, recordSpend]
          linarith
        · simp [applyOp, recordSpend]
    have hrec := ih (applyOp s op) hrest
    rw [runOps_cons]
    exact ⟨le_trans hstep.1 hrec.1, le_trans hstep.2 hrec.2⟩

/-- Claim C2: `checkBudget` is a pure read (running it changes no state and
it is a total function): with `limit` unset it returns
`allowed = true, remaining = null` whatever was spent; otherwise it returns
`remaining = limit - spent` and `allowed` exactly when the remainder is
positive. -/
theorem checkBudget_spec (s : BudgetState) :
    applyOp s BudgetOp.check = s ∧
    (s.limit = none → checkBudget s = { allowed := true, remaining := none }) ∧
    (∀ l, s.limit = some l →
      checkBudget s =
        { allowed := decide (0 < l - s.spent), remaining := some (l - s.spent) } ∧
      ((checkBudget s).allowed = true ↔ 0 < l - s.spent)) := by
  refine ⟨rfl, ?_, ?_⟩
  · intro h
    simp [checkBudget, h]
  · intro l h
    refine ⟨by simp [checkBudget, h], ?_⟩
    simp [checkBudget, h]

/-- Claim C2 witness: a concrete state with `limit = 5, spent = 2` is
allowed with remaining `3`. -/
theorem checkBudget_spec_witness :
    checkBudget demoBudgetState = { allowed := true, remaining := some 3 } := by
  have h := ((checkBudget_spec demoBudgetState).2.2 5 rfl).1
  rw [h]
  have h3 : (5 : ℚ) - demoBudgetState.spent = 3 := by
    simp [demoBudgetState]
    norm_num
  rw [h3]
  simp

/-- Claim C3: any sequence of `recordSpend(c1) … recordSpend(cn)` from the
initial state, interleaved arbitrarily with `checkBudget` calls, ends with
`spent = Σ ci` and `calls = n`. -/
theorem recordSpend_accumulates (ops : List BudgetOp)
    (h : ∀ op ∈ ops, op = BudgetOp.check ∨ ∃ c, op = BudgetOp.record c) :
    (runOps initialBudget ops).spent = (recordedCosts ops).sum ∧
      (runOps initialBudget ops).calls = (recordedCosts ops).length := by
  have hr := runOps_spent_calls ops initialBudget h
  simpa [initialBudget] using hr

/-- Claim C3 witness: spends of 0.60, 0.30, 0.15 with a check interleaved
yield `spent = 1.05` and `calls = 3` (the spec §8 scenario). -/
theorem recordSpend_accumulates_witness :
    (runOps initialBudget demoOps).spent = 21 / 20 ∧
      (runOps initialBudget demoOps).calls = 3 := by
  have h := recordSpend_accumulates demoOps (by
    intro op hop
    simp [demoOps] at hop
    rcases hop with rfl | rfl | rfl | rfl
    · exact Or.inr ⟨6 / 10, rfl⟩
    · exact Or.inl rfl
    · exact Or.inr ⟨3 / 10, rfl⟩
    · exact Or.inr ⟨15 / 100, rfl⟩)
  constructor
  · rw [h.1]
    simp [demoOps, recordedCosts]
    norm_num
  · rw [h.2]
    simp [demoOps, recordedCosts]

/-- Claim C4: `setLimit(amount)` fails with `InvalidArgument` and leaves the
state unchanged for every `amount ≤ 0`, replaces the limit for every
`amount > 0`; `clearLimit` always succeeds, sets `limit = null`, and a
subsequent `checkBudget` returns `allowed = true, remaining = null`. -/
theorem setLimit_clearLimit_spec (amount : ℚ) (s : BudgetState) :
    (amount ≤ 0 →
      setLimit amount s = Except.error BudgetError.invalidArgument ∧
      applyOp s (BudgetOp.setL amount) = s) ∧
    (0 < amount → setLimit amount s = Except.ok { s with limit := some amount }) ∧
    clearLimit s = { s with limit := none } ∧
    checkBudget (clearLimit s) = { allowed := true, remaining := none } := by
  refine ⟨?_, ?_, rfl, rfl⟩
  · intro h
    constructor
    · simp [setLimit, h]
    · simp [applyOp, setLimit, h]
  · intro h
    simp [setLimit, not_le.mpr h]

/-- Claim C4 witness: `setLimit(-5)` fails on a concrete state and
`checkBudget` after `clearLimit` is unrestricted there. -/
theorem setLimit_clearLimit_spec_witness :
    setLimit (-5) demoBudgetState = Except.error BudgetError.invalidArgument ∧
      checkBudget (clearLimit demoBudgetState) = { allowed := true, remaining := none } := by
  have h := setLimit_clearLimit_spec (-5) demoBudgetState
  exact ⟨(h.1 (by norm_num)).1, h.2.2.2⟩

/-- Claim C7: across any operation sequence whose recorded costs are
non-negative, `spent` and `calls` never decrease; and `setLimit` (whether
it succeeds or fails) and `clearLimit` leave `spent` and `calls`
untouched. -/
theorem budget_monotone_invariant (s : BudgetState) (ops : List BudgetOp)
    (h : ∀ c, BudgetOp.record c ∈ ops → 0 ≤ c) :
    (s.spent ≤ (runOps s ops).spent ∧ s.calls ≤ (runOps s ops).calls) ∧
    (∀ (a : ℚ) (t : BudgetState),
      (applyOp t (BudgetOp.setL a)).spent = t.spent ∧
      (applyOp t (BudgetOp.setL a)).calls = t.calls ∧
      (clearLimit t).spent = t.spent ∧ (clearLimit t).calls = t.calls) := by
  refine ⟨runOps_mono ops s h, ?_⟩
  intro a t
  by_cases ha : a ≤ 0 <;> simp [applyOp, setLimit, clearLimit, ha]

/-- Claim C7 witness: over the concrete spec §8 spend sequence, `spent` and
`calls` do not decrease from the initial state. -/
theorem budget_monotone_invariant_witness :
    initialBudget.spent ≤ (runOps initialBudget demoOps).spent ∧
      initialBudget.calls ≤ (runOps initialBudget demoOps).calls := by
  have h := budget_monotone_invariant initialBudget demoOps (by
    intro c hc
    simp [demoOps] at hc
    rcases hc with rfl | rfl | rfl <;> norm_num)
  exact h.1

theorem getBalance_cons (e : RpcOutcome) (rest : List RpcOutcome) :
    getBalance (e :: rest) =
      match usableValue e with
      | some v => some v
      | none => getBalance rest := by
  cases e <;> rfl

theorem getBalance_skip_unusable : ∀ (unused : List RpcOutcome),
    (∀ e ∈ unused, usableValue e = none) →
    ∀ rest, getBalance (unused ++ rest) = getBalance rest := by
  intro unused
  induction unused with
  | nil => intro _ rest; rfl
  | cons e es ih =>
    intro h rest
    have he := h e (List.mem_cons_self _ _)
    have hes : ∀ x ∈ es, usableValue x = none := fun x hx => h x (List.mem_cons_of_mem _ hx)
    rw [List.cons_append, getBalance_cons, he]
    exact ih hes rest

/-- Claim C5: `getBalance` walks the endpoints in order; at the first
endpoint whose result is usable it decodes the hexadecimal integer,
divides by `10^6`, returns that value, and never consults the remaining
endpoints; in particular, endpoint 1 failing and endpoint 2 answering
`0xf4240` yields exactly `1`. -/
theorem getBalance_first_success (unusable later : List RpcOutcome)
    (s : List Char) (v : ℚ)
    (hpre : ∀ e ∈ unusable, usableValue e = none)
    (hs : decodeResult s = some v) :
    getBalance (unusable ++ RpcOutcome.result s :: later) = some v ∧
    (∀ (digits : List Char) (n : ℕ), decodeHexNat digits = some n →
      decodeResult ('0' :: 'x' :: digits) = some ((n : ℚ) / usdcScale)) ∧
    getBalance [RpcOutcome.failure, RpcOutcome.result resultF4240] = some 1 := by
  refine ⟨?_, ?_, ?_⟩
  · rw [getBalance_skip_unusable unusable hpre, getBalance_cons]
    simp [usableValue, hs]
  · intro digits n hn
    simp [decodeResult, hn]
  · have hd : decodeHexNat ['f', '4', '2', '4', '0'] = some 1000000 := by decide
    show getBalance [RpcOutcome.failure, RpcOutcome.result resultF4240] = some 1
    rw [getBalance_cons, getBalance_cons]
    simp [usableValue, resultF4240, decodeResult, hd, usdcScale]

/-- Claim C5 witness: the spec §8 example, endpoint 1 failing and endpoint 2
returning `0xf4240`, evaluates to balance `1`. -/
theorem getBalance_first_success_witness :
    getBalance [RpcOutcome.failure, RpcOutcome.result resultF4240] = some 1 := by
  have hs : decodeResult resultF4240 = some 1 := by
    have hd : decodeHexNat ['f', '4', '2', '4', '0'] = some 1000000 := by decide
    simp [resultF4240, decodeResult, hd, usdcScale]
  have h := getBalance_first_success [RpcOutcome.failure] [] resultF4240 1
    (by intro e he; simp at he; subst he; rfl) hs
  exact h.2.2

/-- Claim C6: `getBalance` is a total function (no exception crosses the
component boundary); a transport failure or a well-formed-but-empty `0x`
result each fall through to the remaining endpoints, and when no endpoint
yields a usable result the outcome is the distinguished `none`, never the
number `0`. -/
theorem getBalance_absorbs_failures (rest exhausted : List RpcOutcome)
    (hall : ∀ e ∈ exhausted, usableValue e = none) :
    getBalance (RpcOutcome.failure :: rest) = getBalance rest ∧
    getBalance (RpcOutcome.result emptyHex :: rest) = getBalance rest ∧
    getBalance exhausted = none ∧ getBalance exhausted ≠ some 0 := by
  have hnone : getBalance exhausted = none := by
    have h := getBalance_skip_unusable exhausted hall []
    simpa using h
  refine ⟨rfl, ?_, hnone, by simp [hnone]⟩
  rw [getBalance_cons]
  simp [usableValue, emptyHex, decodeResult, decodeHexNat]

/-- Claim C6 witness: with one transport failure and one empty `0x` answer,
the balance is reported unavailable (`none`), not `0`. -/
theorem getBalance_absorbs_failures_witness :
    getBalance [RpcOutcome.failure, RpcOutcome.result emptyHex] = none := by
  have h := getBalance_absorbs_failures []
    [RpcOutcome.failure, RpcOutcome.result emptyHex] (by
      intro e he
      simp at he
      rcases he with rfl | rfl
      · rfl
      · simp [usableValue, emptyHex, decodeResult, decodeHexNat])
  exact h.2.2.1

theorem startsW_iff : ∀ (marker s : List Char),
    startsW marker s = true ↔ ∃ t, s = marker ++ t := by
  intro marker
  induction marker with
  | nil =>
    intro s
    constructor
    · intro _
      exact ⟨s, rfl⟩
    · intro _
      rfl
  | cons a as ih =>
    intro s
    cases s with
    | nil =>
      constructor
      · intro h
        exact absurd h (by simp [startsW])
      · rintro ⟨t, ht⟩
        exact absurd ht (by simp)
    | cons b bs =>
      constructor
      · intro h
        have h' : (a == b && startsW as bs) = true := h
        rw [Bool.and_eq_true, beq_iff_eq] at h'
        obtain ⟨t, ht⟩ := (ih bs).1 h'.2
        exact ⟨t, by simp [h'.1, ht]⟩
      · rintro ⟨t, ht⟩
        injection ht with h1 h2
        show (a == b && startsW as bs) = true
        rw [Bool.and_eq_true, beq_iff_eq]
        exact ⟨h1.symm, (ih bs).2 ⟨t, h2⟩⟩

theorem containsSub_iff : ∀ (needle hay : List Char),
    containsSub needle hay = true ↔ ∃ front back, hay = front ++ needle ++ back := by
  intro needle hay
  induction hay with
  | nil =>
    constructor
    · intro h
      obtain ⟨t, ht⟩ := (startsW_iff needle []).1 h
      exact ⟨[], t, by simpa using ht⟩
    · rintro ⟨front, back, hp⟩
      have h0 : front ++ (needle ++ back) = [] := by simpa using hp.symm
      rw [List.append_eq_nil] at h0
      have h1 := h0.2
      rw [List.append_eq_nil] at h1
      show containsSub needle [] = true
      simp [containsSub, h1.1, startsW]
  | cons c rest ih =>
    constructor
    · intro h
      have h' : (startsW needle (c :: rest) || containsSub needle rest) = true := h
      rw [Bool.or_eq_true] at h'
      cases h' with
      | inl hs =>
        obtain ⟨t, ht⟩ := (startsW_iff needle (c :: rest)).1 hs
        exact ⟨[], t, by simpa using ht⟩
      | inr hc =>
        obtain ⟨front, back, hp⟩ := ih.1 hc
        exact ⟨c :: front, back, by simp [hp]⟩
    · rintro ⟨front, back, hp⟩
      show (startsW needle (c :: rest) || containsSub needle rest) = true
      rw [Bool.or_eq_true]
      cases front with
      | nil =>
        exact Or.inl ((startsW_iff needle (c :: rest)).2 ⟨back, by simpa using hp⟩)
      | cons p ps =>
        injection hp with h1 h2
        exact Or.inr (ih.2 ⟨ps, back, h2⟩)

/-- Claim C9: a thrown handler error becomes a non-throwing tool result with
`isError = true` whose text is `Error: ` followed by the message; the
wallet-funding instructions are appended exactly when the lower-cased
message contains `payment`, `402`, `balance` or `insufficient`; a normal
handler result is passed through without the error flag. -/
theorem callTool_error_contract (m t : List Char) :
    dispatchToolCall (Except.ok t) = { text := t, isError := false } ∧
    dispatchToolCall (Except.error m) =
      { text := errorHeadS.data ++ m ++
          (if isPaymentError m then fundingS.data else []),
        isError := true } ∧
    (isPaymentError m = true ↔
      ((∃ front back, lowerChars m = front ++ paymentS.data ++ back) ∨
       (∃ front back, lowerChars m = front ++ code402S.data ++ back) ∨
       (∃ front back, lowerChars m = front ++ balanceS.data ++ back) ∨
       (∃ front back, lowerChars m = front ++ insufficientS.data ++ back))) := by
  refine ⟨rfl, rfl, ?_⟩
  simp only [isPaymentError, Bool.or_eq_true, containsSub_iff]
  rw [or_assoc, or_assoc]

/-- Claim C9 witness: the message `402 Payment Required` is detected as
payment-related and its dispatched result carries the error flag with the
funding instructions appended. -/
theorem callTool_error_contract_witness :
    (dispatchToolCall (Except.error paymentDemoS.data)).isError = true ∧
      isPaymentError paymentDemoS.data = true := by
  have h := callTool_error_contract paymentDemoS.data []
  refine ⟨?_, ?_⟩
  · rw [h.2.1]
  · exact h.2.2.mpr (Or.inl ⟨payPreS.data, payPostS.data, by decide⟩)

/-- Claim C10: for every routing mode the tier table lists exactly three
models; the handler tries them in the listed order, returns at the first
model whose chat call succeeds with the response prefixed by
`[Used: <model>]`, surfaces the third model's error when all three fail,
and only an empty model list produces the `All models failed` fallback. -/
theorem smartRoute_tier_order (chat : List Char → Except (List Char) (List Char))
    (mode : RoutingMode) (m0 m1 m2 : List Char)
    (hm : MODEL_TIERS mode = [m0, m1, m2]) :
    (∀ r, chat m0 = Except.ok r →
      handleSmartRoute chat mode = Except.ok (usedTag m0 r)) ∧
    (∀ e0 r, chat m0 = Except.error e0 → chat m1 = Except.ok r →
      handleSmartRoute chat mode = Except.ok (usedTag m1 r)) ∧
    (∀ e0 e1 r, chat m0 = Except.error e0 → chat m1 = Except.error e1 →
      chat m2 = Except.ok r →
      handleSmartRoute chat mode = Except.ok (usedTag m2 r)) ∧
    (∀ e0 e1 e2, chat m0 = Except.error e0 → chat m1 = Except.error e1 →
      chat m2 = Except.error e2 →
      handleSmartRoute chat mode = Except.error e2) ∧
    (∀ md : RoutingMode, (MODEL_TIERS md).length = 3) ∧
    tryModels chat [] none = Except.error allModelsFailedS.data := by
  refine ⟨?_, ?_, ?_, ?_, ?_, rfl⟩
  · intro r h0
    simp [handleSmartRoute, hm, tryModels, h0]
  · intro e0 r h0 h1
    simp [handleSmartRoute, hm, tryModels, h0, h1]
  · intro e0 e1 r h0 h1 h2
    simp [handleSmartRoute, hm, tryModels, h0, h1, h2]
  · intro e0 e1 e2 h0 h1 h2
    simp [handleSmartRoute, hm, tryModels, h0, h1, h2]
  · intro md
    cases md <;> rfl

/-- Claim C10 witness: in `reasoning` mode, with the first two tier models
failing and the third succeeding, the handler answers with the third
model's tag. -/
theorem smartRoute_tier_order_witness :
    handleSmartRoute demoChat RoutingMode.reasoning =
      Except.ok (usedTag deepseekReasonerS.data demoReasonReplyS.data) := by
  have h := smartRoute_tier_order demoChat RoutingMode.reasoning
    o3S.data o1S.data deepseekReasonerS.data rfl
  exact h.2.2.1 demoErr0S.data demoErr1S.data demoReasonReplyS.data rfl rfl rfl

/-- Claim C1 counterexample: on a chat call that completes successfully,
the handler's event trace consists of the paid call alone — it does not
first consult `checkBudget`, and `recordSpend` is invoked zero times, not
exactly once, so the claimed gating control flow is false of the code. -/
theorem chat_gate_claim_cex :
    (handleChat demoOkChat demoModelS.data demoMessageS.data).2 =
      Except.ok demoReplyS.data ∧
    ¬ (firstConsultsBudget
        (handleChat demoOkChat demoModelS.data demoMessageS.data).1 = true ∧
       spendRecordCount
        (handleChat demoOkChat demoModelS.data demoMessageS.data).1 = 1) := by
  refine ⟨rfl, ?_⟩
  decide

/-- Claim C1 amended: the chat tool handlers issue the external paid call
unconditionally — the event trace is exactly the one paid call, with no
budget consultation and no spend recording, and the returned value is the
external call's response (no budget guard is wired into the handlers). -/
theorem chat_handler_unguarded
    (chat : List Char → List Char → Except (List Char) (List Char))
    (model message : List Char) :
    (handleChat chat model message).1 = [ChatEvent.paidCall model] ∧
    (handleChat chat model message).2 = chat model message ∧
    (chatToolHandler chat model message).1 = [ChatEvent.paidCall model] ∧
    firstConsultsBudget (handleChat chat model message).1 = false ∧
    spendRecordCount (handleChat chat model message).1 = 0 := by
  refine ⟨rfl, rfl, ?_, rfl, rfl⟩
  cases h : chat model message <;> simp [chatToolHandler, h]

/-- Claim C8 counterexample: `BLOCKRUN_WALLET_KEY` set to the empty string
is a present environment variable, yet the code's truthiness test skips it
— with a valid wallet file the saved key is returned instead of the env
value, so "an environment variable is always used when present" is false. -/
theorem walletKey_env_present_cex :
    getOrCreateWalletKey (some []) none (WalletFile.stored goodKeyS.data)
        freshKeyS.data =
      { key := goodKeyS.data, created := false } ∧
    goodKeyS.data ≠ ([] : List Char) := by
  refine ⟨?_, by decide⟩
  decide

/-- Claim C8 amended: a *nonempty* `BLOCKRUN_WALLET_KEY` or
`BASE_CHAIN_WALLET_KEY` is always used when present (an empty-string
variable is treated as absent, per JS truthiness); otherwise the saved
file key is used exactly when its trimmed content starts with `0x` and is
66 characters long; in every other case (file absent, unreadable, or
malformed) a freshly generated key is returned and `walletWasCreated` is
set. -/
theorem walletKey_priority (bk bck : Option (List Char)) (file : WalletFile)
    (fresh : List Char) :
    (jsTruthy (jsOrElse bk bck) = true ↔
      ((∃ s, bk = some s ∧ s ≠ []) ∨
       (jsTruthy bk = false ∧ ∃ s, bck = some s ∧ s ≠ []))) ∧
    (jsTruthy (jsOrElse bk bck) = true →
      getOrCreateWalletKey bk bck file fresh =
        { key := (jsOrElse bk bck).getD [], created := false }) ∧
    (jsTruthy (jsOrElse bk bck) = false →
      ((∀ content, file = WalletFile.stored content →
          validKeyFormat (trimChars content) = true →
          getOrCreateWalletKey bk bck file fresh =
            { key := trimChars content, created := false }) ∧
       (∀ content, file = WalletFile.stored content →
          validKeyFormat (trimChars content) = false →
          getOrCreateWalletKey bk bck file fresh =
            { key := fresh, created := true }) ∧
       (file = WalletFile.absent →
          getOrCreateWalletKey bk bck file fresh =
            { key := fresh, created := true }) ∧
       (file = WalletFile.unreadable →
          getOrCreateWalletKey bk bck file fresh =
            { key := fresh, created := true }))) := by
  refine ⟨?_, ?_, ?_⟩
  · cases bk with
    | none =>
      cases bck with
      | none => simp [jsOrElse, jsTruthy]
      | some s =>
        simp [jsOrElse, jsTruthy, List.isEmpty_iff]
    | some s =>
      by_cases hs : s = []
      · subst hs
        cases bck with
        | none => simp [jsOrElse, jsTruthy]
        | some u =>
          simp [jsOrElse, jsTruthy, List.isEmpty_iff]
      · simp [jsOrElse, jsTruthy, List.isEmpty_iff, hs]
  · intro h
    simp [getOrCreateWalletKey, h]
  · intro h
    refine ⟨?_, ?_, ?_, ?_⟩
    · intro content hf hv
      subst hf
      simp [getOrCreateWalletKey, h, hv]
    · intro content hf hv
      subst hf
      simp [getOrCreateWalletKey, h, hv]
    · intro hf
      subst hf
      simp [getOrCreateWalletKey, h]
    · intro hf
      subst hf
      simp [getOrCreateWalletKey, h]

/-- Claim C8 amended witness: a concrete nonempty env key takes priority
over an existing wallet file. -/
theorem walletKey_priority_witness :
    getOrCreateWalletKey (some demoEnvKeyS.data) none
        (WalletFile.stored goodKeyS.data) freshKeyS.data =
      { key := demoEnvKeyS.data, created := false } := by
  have h := walletKey_priority (some demoEnvKeyS.data) none
    (WalletFile.stored goodKeyS.data) freshKeyS.data
  have ht : jsTruthy (jsOrElse (some demoEnvKeyS.data) none) = true := by decide
  rw [h.2.1 ht]
  decide
